import Mathlib

/-
Verification development for the TinyConfig key-value configuration store
(ESP8266-TinyConfig): a shallow embedding of src/src/TinyConfig.cpp and
src/include/TinyConfig.h, and theorems about its operations.

Modelling conventions.
The LittleFS filesystem and the ArduinoJson parser/serializer are external
collaborators; they are modelled by their contracts: the file holds either
a well-formed JSON object (recorded as its parsed document, since the JSON
collaborator parses back exactly what it serialized) or malformed bytes,
and driver-level failures are injected through explicit flags of the
filesystem state.  Float values are represented by the decimal literal the
serializer emits, because the binary float representation lives entirely
inside the out-of-scope collaborators.  Every operation returns its result
together with the updated class state, the updated filesystem state, and
the trace of full-file reads and writes it performed.
-/

set_option maxHeartbeats 1000000

/-- Error codes reported by the store, mirroring the TinyConfigError enum
of the header. -/
inductive TinyConfigError where
  | None
  | FSInitFailed
  | FSNotRunning
  | FSAlreadyRunning
  | FileOpenFailed
  | FileWriteFailed
  | FileCreateFailed
  | JsonParseFailed
  | JsonSerializeFailed
  | FileSizeTooSmall
  | FileSizeTooLarge
  deriving DecidableEq, Repr

/-- JSON values storable in the configuration document: integers, floats
and strings, matching the three set overloads.  A float is carried as the
decimal literal produced by the serializer collaborator. -/
inductive JVal where
  | jint (n : Int)
  | jfloat (text : String)
  | jstr (s : String)
  deriving DecidableEq, Repr

/-- In-memory configuration document: a JSON object as an ordered list of
key-value members, mirroring ArduinoJson object storage. -/
abbrev Doc := List (String × JVal)

/-- Key membership test, modelling JsonDocument containsKey. -/
def containsKey (d : Doc) (k : String) : Bool :=
  d.any (fun p => decide (p.1 = k))

/-- Member lookup, modelling the read side of indexing the document at a
key. -/
def docGet (d : Doc) (k : String) : Option JVal :=
  (d.find? (fun p => decide (p.1 = k))).map (fun p => p.2)

/-- Member assignment, modelling assignment to the document at a key:
replaces the value in place when the key exists, appends a new member
otherwise. -/
def docSet (d : Doc) (k : String) (v : JVal) : Doc :=
  if containsKey d k then
    d.map (fun p => if p.1 = k then (k, v) else p)
  else d ++ [(k, v)]

/-- Member removal, modelling doc.remove on a key. -/
def docRemove (d : Doc) (k : String) : Doc :=
  d.filter (fun p => !(decide (p.1 = k)))

/-- JSON string escaping as performed by the serializer collaborator. -/
def jsonEscapeChar (c : Char) : String :=
  if c = '"' then "\\\""
  else if c = '\\' then "\\\\"
  else if c = '\n' then "\\n"
  else if c = '\r' then "\\r"
  else if c = '\t' then "\\t"
  else String.mk [c]

/-- Escape a whole string for inclusion in JSON output. -/
def jsonEscape (s : String) : String :=
  String.join (s.toList.map jsonEscapeChar)

/-- Serialization of one member value. -/
def serializeVal : JVal → String
  | .jint n => toString n
  | .jfloat t => t
  | .jstr s => "\"" ++ jsonEscape s ++ "\""

/-- Whole-document serialization, modelling serializeJson on a document:
a single-line JSON object listing the members in order. -/
def serializeDoc (d : Doc) : String :=
  "\x7b" ++ String.intercalate ","
      (d.map (fun p => "\"" ++ jsonEscape p.1 ++ "\":" ++ serializeVal p.2))
    ++ "\x7d"

/-- Events observable at the filesystem boundary: a full read of the
backing file, or a full write of it. -/
inductive FsEvent where
  | read
  | write
  deriving DecidableEq, Repr

/-- On-disk content of the configuration file: a well-formed JSON object,
recorded as the document it parses to, or malformed bytes. -/
inductive FileContent where
  | good (d : Doc)
  | malformed
  deriving DecidableEq, Repr

/-- State of the LittleFS collaborator: the configuration file content,
none when the file does not exist, together with failure-injection flags
for the operations the driver can refuse: mounting, opening for read,
opening for truncating write, and streaming bytes into an open file. -/
structure FS where
  file : Option FileContent
  beginFail : Bool
  openRFail : Bool
  openWFail : Bool
  writeFail : Bool
  deriving DecidableEq, Repr

/-- Fields of the TinyConfig class, as declared in the header with their
default member initializers. -/
structure TinyConfig where
  lastError : TinyConfigError
  isInitialized : Bool
  maxFileSize : Nat
  deriving DecidableEq, Repr

/-- Result of one operation: return value, class state after the call,
filesystem state after the call, and the trace of full-file reads and
writes the call performed. -/
structure Out (α : Type) where
  ret : α
  tc : TinyConfig
  fs : FS
  tr : List FsEvent
  deriving DecidableEq, Repr

/-- The parsed document currently on disk; empty when the file is missing
or malformed. -/
def FS.doc (fs : FS) : Doc :=
  match fs.file with
  | some (.good d) => d
  | _ => []

/-- True when opening the file for read and parsing it would succeed. -/
def FS.loadOK (fs : FS) : Bool :=
  !fs.openRFail &&
    (match fs.file with
     | some (.good _) => true
     | _ => false)

/-- True when opening the file for truncating write and serializing into
it would succeed. -/
def FS.saveOK (fs : FS) : Bool :=
  !fs.openWFail && !fs.writeFail

/-- TinyConfig loadDoc: open the file for read, then parse the whole
content into a document.  A missing file and a refused open both surface
as FileOpenFailed; malformed content surfaces as JsonParseFailed. -/
def TinyConfig.loadDoc (tc : TinyConfig) (fs : FS) : Out (Option Doc) :=
  match fs.file with
  | none => ⟨none, { tc with lastError := .FileOpenFailed }, fs, []⟩
  | some c =>
    if fs.openRFail then ⟨none, { tc with lastError := .FileOpenFailed }, fs, []⟩
    else
      match c with
      | .malformed => ⟨none, { tc with lastError := .JsonParseFailed }, fs, [.read]⟩
      | .good d => ⟨some d, { tc with lastError := .None }, fs, [.read]⟩

/-- TinyConfig saveDoc: open the file for truncating write, then
serialize the document into it.  A zero-byte serialization result is
reported as FileWriteFailed; the truncating open has already emptied the
file in that case, leaving malformed (empty) content behind. -/
def TinyConfig.saveDoc (tc : TinyConfig) (fs : FS) (d : Doc) : Out Bool :=
  if fs.openWFail then ⟨false, { tc with lastError := .FileOpenFailed }, fs, []⟩
  else if fs.writeFail then
    ⟨false, { tc with lastError := .FileWriteFailed },
      { fs with file := some .malformed }, []⟩
  else ⟨true, { tc with lastError := .None },
    { fs with file := some (.good d) }, [.write]⟩

/-- TinyConfig resetConfig: open the file for truncating write and print
the two-byte empty object, whose parsed form is the empty document.  The
source discards the result of printing, so the write is modelled as
landing once the open succeeded.  The initialized flag is not consulted. -/
def TinyConfig.resetConfig (tc : TinyConfig) (fs : FS) : Out Bool :=
  if fs.openWFail then ⟨false, { tc with lastError := .FileCreateFailed }, fs, []⟩
  else ⟨true, { tc with lastError := .None },
    { fs with file := some (.good []) }, [.write]⟩

/-- TinyConfig StartTC: refuse when already initialized, mount the
filesystem, create the file through resetConfig when it does not exist,
then mark the store initialized. -/
def TinyConfig.StartTC (tc : TinyConfig) (fs : FS) : Out Bool :=
  if tc.isInitialized then ⟨false, { tc with lastError := .FSAlreadyRunning }, fs, []⟩
  else if fs.beginFail then ⟨false, { tc with lastError := .FSInitFailed }, fs, []⟩
  else if fs.file.isNone then
    let r := TinyConfig.resetConfig tc fs
    if r.ret then
      ⟨true, { r.tc with lastError := .None, isInitialized := true }, r.fs, r.tr⟩
    else ⟨false, { r.tc with lastError := .FileCreateFailed }, r.fs, r.tr⟩
  else ⟨true, { tc with lastError := .None, isInitialized := true }, fs, []⟩

/-- TinyConfig StopTC: refuse when not initialized, otherwise unmount and
clear the initialized flag. -/
def TinyConfig.StopTC (tc : TinyConfig) (fs : FS) : Out Bool :=
  if !tc.isInitialized then ⟨false, { tc with lastError := .FSNotRunning }, fs, []⟩
  else ⟨true, { tc with isInitialized := false, lastError := .None }, fs, []⟩

/-- TinyConfig getLastError. -/
def TinyConfig.getLastError (tc : TinyConfig) : TinyConfigError :=
  tc.lastError

/-- TinyConfig setMaxFileSize: accept only sizes between 9 and 4096
bytes inclusive; on rejection the previous bound is kept. -/
def TinyConfig.setMaxFileSize (tc : TinyConfig) (fs : FS) (maxSize : Nat) : Out Bool :=
  if maxSize < 9 then ⟨false, { tc with lastError := .FileSizeTooSmall }, fs, []⟩
  else if maxSize > 4096 then ⟨false, { tc with lastError := .FileSizeTooLarge }, fs, []⟩
  else ⟨true, { tc with maxFileSize := maxSize, lastError := .None }, fs, []⟩

/-- TinyConfig setInternal: load the document, assign the value at the
key, serialize to measure the size, refuse with FileSizeTooLarge when the
serialized length exceeds the bound, otherwise persist through saveDoc. -/
def TinyConfig.setInternal (tc : TinyConfig) (fs : FS) (key : String) (value : JVal) :
    Out Bool :=
  if !tc.isInitialized then ⟨false, { tc with lastError := .FSNotRunning }, fs, []⟩
  else
    let l := TinyConfig.loadDoc tc fs
    match l.ret with
    | none => ⟨false, l.tc, l.fs, l.tr⟩
    | some d =>
      let d2 := docSet d key value
      if (serializeDoc d2).utf8ByteSize > tc.maxFileSize then
        ⟨false, { l.tc with lastError := .FileSizeTooLarge }, l.fs, l.tr⟩
      else
        let s := TinyConfig.saveDoc l.tc l.fs d2
        if s.ret then ⟨true, { s.tc with lastError := .None }, s.fs, l.tr ++ s.tr⟩
        else ⟨false, s.tc, s.fs, l.tr ++ s.tr⟩

/-- TinyConfig set: the three public overloads all delegate to
setInternal, with the overload choice captured by the value constructor. -/
def TinyConfig.set (tc : TinyConfig) (fs : FS) (key : String) (value : JVal) : Out Bool :=
  TinyConfig.setInternal tc fs key value

/-- TinyConfig getInt: load the document and return the integer at the
key, or the fallback when the key is absent or not an integer. -/
def TinyConfig.getInt (tc : TinyConfig) (fs : FS) (key : String) (fallback : Int) :
    Out Int :=
  if !tc.isInitialized then ⟨fallback, { tc with lastError := .FSNotRunning }, fs, []⟩
  else
    let l := TinyConfig.loadDoc tc fs
    match l.ret with
    | none => ⟨fallback, l.tc, l.fs, l.tr⟩
    | some d =>
      ⟨(match docGet d key with
         | some (.jint n) => n
         | _ => fallback),
        { l.tc with lastError := .None }, l.fs, l.tr⟩

/-- TinyConfig getFloat: load the document and return the float at the
key, or the fallback when the key is absent or not a float.  Float values
are carried as their decimal literals. -/
def TinyConfig.getFloat (tc : TinyConfig) (fs : FS) (key : String) (fallback : String) :
    Out String :=
  if !tc.isInitialized then ⟨fallback, { tc with lastError := .FSNotRunning }, fs, []⟩
  else
    let l := TinyConfig.loadDoc tc fs
    match l.ret with
    | none => ⟨fallback, l.tc, l.fs, l.tr⟩
    | some d =>
      ⟨(match docGet d key with
         | some (.jfloat t) => t
         | _ => fallback),
        { l.tc with lastError := .None }, l.fs, l.tr⟩

/-- TinyConfig getString: load the document and return the string at the
key, or the fallback when the key is absent or not a string. -/
def TinyConfig.getString (tc : TinyConfig) (fs : FS) (key : String) (fallback : String) :
    Out String :=
  if !tc.isInitialized then ⟨fallback, { tc with lastError := .FSNotRunning }, fs, []⟩
  else
    let l := TinyConfig.loadDoc tc fs
    match l.ret with
    | none => ⟨fallback, l.tc, l.fs, l.tr⟩
    | some d =>
      ⟨(match docGet d key with
         | some (.jstr s) => s
         | _ => fallback),
        { l.tc with lastError := .None }, l.fs, l.tr⟩

/-- TinyConfig getAllJson: load the whole document; on any failure return
the default-constructed empty document with the failure recorded. -/
def TinyConfig.getAllJson (tc : TinyConfig) (fs : FS) : Out Doc :=
  if !tc.isInitialized then ⟨[], { tc with lastError := .FSNotRunning }, fs, []⟩
  else
    let l := TinyConfig.loadDoc tc fs
    match l.ret with
    | none => ⟨[], l.tc, l.fs, l.tr⟩
    | some d => ⟨d, { l.tc with lastError := .None }, l.fs, l.tr⟩

/-- TinyConfig getAll: load the whole document and serialize it to a
string; a zero-byte serialization yields the fallback with
JsonSerializeFailed. -/
def TinyConfig.getAll (tc : TinyConfig) (fs : FS) (fallback : String) : Out String :=
  if !tc.isInitialized then ⟨fallback, { tc with lastError := .FSNotRunning }, fs, []⟩
  else
    let l := TinyConfig.loadDoc tc fs
    match l.ret with
    | none => ⟨fallback, l.tc, l.fs, l.tr⟩
    | some d =>
      let s := serializeDoc d
      if s.utf8ByteSize = 0 then
        ⟨fallback, { l.tc with lastError := .JsonSerializeFailed }, l.fs, l.tr⟩
      else ⟨s, { l.tc with lastError := .None }, l.fs, l.tr⟩

/-- TinyConfig deleteKey: load the document; an absent key is reported as
no deletion with the error cleared; a present key is removed and the
document persisted. -/
def TinyConfig.deleteKey (tc : TinyConfig) (fs : FS) (key : String) : Out Bool :=
  if !tc.isInitialized then ⟨false, { tc with lastError := .FSNotRunning }, fs, []⟩
  else
    let l := TinyConfig.loadDoc tc fs
    match l.ret with
    | none => ⟨false, l.tc, l.fs, l.tr⟩
    | some d =>
      if !containsKey d key then ⟨false, { l.tc with lastError := .None }, l.fs, l.tr⟩
      else
        let s := TinyConfig.saveDoc l.tc l.fs (docRemove d key)
        if s.ret then ⟨true, { s.tc with lastError := .None }, s.fs, l.tr ++ s.tr⟩
        else ⟨false, s.tc, s.fs, l.tr ++ s.tr⟩

/-- The removal loop of the plural delete: walk the keys, removing each
one that is present and recording whether any removal happened. -/
def deleteLoop (d : Doc) (deleted : Bool) : List String → Doc × Bool
  | [] => (d, deleted)
  | k :: ks =>
    if containsKey d k then deleteLoop (docRemove d k) true ks
    else deleteLoop d deleted ks

/-- TinyConfig deleteKeys on a vector of keys: load once, remove every
present key, save once when at least one removal happened, and report
whether any removal happened. -/
def TinyConfig.deleteKeysList (tc : TinyConfig) (fs : FS) (keys : List String) : Out Bool :=
  if !tc.isInitialized then ⟨false, { tc with lastError := .FSNotRunning }, fs, []⟩
  else
    let l := TinyConfig.loadDoc tc fs
    match l.ret with
    | none => ⟨false, l.tc, l.fs, l.tr⟩
    | some d =>
      let r := deleteLoop d false keys
      if r.2 then
        let s := TinyConfig.saveDoc l.tc l.fs r.1
        if s.ret then ⟨true, { s.tc with lastError := .None }, s.fs, l.tr ++ s.tr⟩
        else ⟨false, s.tc, s.fs, l.tr ++ s.tr⟩
      else ⟨false, { l.tc with lastError := .None }, l.fs, l.tr⟩

/-- The element-by-element copy performed by the vector constructor of
the array overload: element i of the array, for each i below count. -/
def takeCount (keys : List String) (count : Nat) : List String :=
  (List.range count).map (fun i => keys.getD i "")

/-- TinyConfig deleteKeys on an array and a count: build the vector of
the first count array elements and delegate to the vector overload. -/
def TinyConfig.deleteKeysArr (tc : TinyConfig) (fs : FS) (keys : List String)
    (count : Nat) : Out Bool :=
  TinyConfig.deleteKeysList tc fs (takeCount keys count)

/-- Unfolding lemma: key membership on a cons cell. -/
theorem containsKey_cons (p : String × JVal) (t : Doc) (k : String) :
    containsKey (p :: t) k = (decide (p.1 = k) || containsKey t k) := by
  simp [containsKey]

/-- Unfolding lemma: lookup on a cons cell. -/
theorem docGet_cons (p : String × JVal) (t : Doc) (k : String) :
    docGet (p :: t) k = if p.1 = k then some p.2 else docGet t k := by
  by_cases h : p.1 = k <;> simp [docGet, List.find?, h]

/-- A document without the key looks it up to nothing. -/
theorem docGet_eq_none (d : Doc) (k : String) (h : containsKey d k = false) :
    docGet d k = none := by
  induction d with
  | nil => rfl
  | cons p t ih =>
    rw [containsKey_cons] at h
    rw [docGet_cons]
    simp only [Bool.or_eq_false_iff, decide_eq_false_iff_not] at h
    simp [h.1, ih h.2]

/-- Assignment followed by lookup of the same key yields the assigned
value, in the replace branch. -/
theorem docGet_map_replace (d : Doc) (k : String) (v : JVal)
    (h : containsKey d k = true) :
    docGet (d.map (fun p => if p.1 = k then (k, v) else p)) k = some v := by
  induction d with
  | nil => simp [containsKey] at h
  | cons p t ih =>
    rw [containsKey_cons] at h
    by_cases hp : p.1 = k
    · simp [hp, docGet_cons]
    · simp only [decide_eq_true_eq, Bool.or_eq_true] at h
      rcases h with h | h
      · exact absurd h hp
      · simp only [List.map_cons, if_neg hp]
        rw [docGet_cons]
        simp [hp, ih h]

/-- Assignment followed by lookup of the same key yields the assigned
value, in the append branch. -/
theorem docGet_append_single (d : Doc) (k : String) (v : JVal)
    (h : containsKey d k = false) :
    docGet (d ++ [(k, v)]) k = some v := by
  induction d with
  | nil => simp [docGet]
  | cons p t ih =>
    rw [containsKey_cons] at h
    simp only [Bool.or_eq_false_iff, decide_eq_false_iff_not] at h
    rw [List.cons_append, docGet_cons]
    simp [h.1, ih h.2]

/-- Assigning a value at a key and looking the key up returns exactly
that value. -/
theorem docGet_docSet (d : Doc) (k : String) (v : JVal) :
    docGet (docSet d k v) k = some v := by
  unfold docSet
  by_cases h : containsKey d k = true
  · rw [if_pos h]; exact docGet_map_replace d k v h
  · rw [if_neg h]
    exact docGet_append_single d k v (Bool.eq_false_iff.mpr h)

/-- Removal really removes: after docRemove the key is absent. -/
theorem containsKey_docRemove_self (d : Doc) (k : String) :
    containsKey (docRemove d k) k = false := by
  induction d with
  | nil => rfl
  | cons p t ih =>
    by_cases hp : p.1 = k <;> simp [docRemove, List.filter, hp, containsKey_cons, ih] <;>
      simpa [docRemove] using ih

/-- A document that does not contain a key is untouched by filtering that
key away together with further keys. -/
theorem filter_congr_not_mem (d : Doc) (k : String) (ks : List String)
    (h : containsKey d k = false) :
    d.filter (fun p => !(decide (p.1 ∈ k :: ks)))
      = d.filter (fun p => !(decide (p.1 ∈ ks))) := by
  apply List.filter_congr
  intro p hp
  have hne : p.1 ≠ k := by
    intro he
    have : containsKey d k = true := by
      simp only [containsKey, List.any_eq_true, decide_eq_true_eq]
      exact ⟨p, hp, he⟩
    simp [this] at h
  simp [List.mem_cons, hne]

/-- The removal loop removes from the document exactly the members whose
key occurs in the key list. -/
theorem deleteLoop_fst (keys : List String) (d : Doc) (b : Bool) :
    (deleteLoop d b keys).1 = d.filter (fun p => !(decide (p.1 ∈ keys))) := by
  induction keys generalizing d b with
  | nil => simp [deleteLoop]
  | cons k ks ih =>
    by_cases h : containsKey d k = true
    · rw [deleteLoop, if_pos h, ih]
      unfold docRemove
      rw [List.filter_filter]
      apply List.filter_congr
      intro p _
      by_cases hpk : p.1 = k <;> simp [hpk, List.mem_cons]
    · rw [deleteLoop, if_neg h, ih,
        filter_congr_not_mem d k ks (Bool.eq_false_iff.mpr h)]

/-- The removal loop reports a removal exactly when its flag was already
set or some listed key is present in the document. -/
theorem deleteLoop_snd (keys : List String) (d : Doc) (b : Bool) :
    (deleteLoop d b keys).2 = (b || keys.any (fun k2 => containsKey d k2)) := by
  induction keys generalizing d b with
  | nil => simp [deleteLoop]
  | cons k ks ih =>
    by_cases h : containsKey d k = true
    · rw [deleteLoop, if_pos h, ih]
      have hrem : ∀ k2, containsKey (docRemove d k) k2 = true → containsKey d k2 = true := by
        intro k2 hc
        simp only [containsKey, docRemove, List.any_eq_true, decide_eq_true_eq] at hc ⊢
        obtain ⟨p, hp, he⟩ := hc
        exact ⟨p, List.mem_of_mem_filter hp, he⟩
      simp [h]
    · rw [deleteLoop, if_neg h, ih]
      have h2 : containsKey d k = false := Bool.eq_false_iff.mpr h
      simp [h2]

/-- Load success characterized through the components of the filesystem
state. -/
theorem loadOK_iff (fs : FS) :
    fs.loadOK = true ↔ fs.openRFail = false ∧ fs.file = some (.good fs.doc) := by
  unfold FS.loadOK FS.doc
  cases hf : fs.file with
  | none => simp
  | some c => cases c <;> simp

/-- Reduction of loadDoc under a successful load. -/
theorem loadDoc_ok (tc : TinyConfig) (fs : FS) (h : fs.loadOK = true) :
    TinyConfig.loadDoc tc fs
      = ⟨some fs.doc, { tc with lastError := .None }, fs, [.read]⟩ := by
  obtain ⟨h1, h2⟩ := (loadOK_iff fs).mp h
  unfold TinyConfig.loadDoc
  rw [h2]
  simp [h1]

/-- A failing load yields no document. -/
theorem loadDoc_fail (tc : TinyConfig) (fs : FS) (h : fs.loadOK = false) :
    (TinyConfig.loadDoc tc fs).ret = none := by
  unfold TinyConfig.loadDoc FS.loadOK at *
  cases hf : fs.file with
  | none => simp
  | some c =>
    rw [hf] at h
    cases c <;> cases hr : fs.openRFail <;> simp_all

/-- Reduction of saveDoc under a successful save. -/
theorem saveDoc_ok (tc : TinyConfig) (fs : FS) (d : Doc) (h : fs.saveOK = true) :
    TinyConfig.saveDoc tc fs d
      = ⟨true, { tc with lastError := .None },
          { fs with file := some (.good d) }, [.write]⟩ := by
  unfold FS.saveOK at h
  simp only [Bool.and_eq_true, Bool.not_eq_true'] at h
  unfold TinyConfig.saveDoc
  simp [h.1, h.2]

/-- A failing save reports failure. -/
theorem saveDoc_ret_false (tc : TinyConfig) (fs : FS) (d : Doc) (h : fs.saveOK = false) :
    (TinyConfig.saveDoc tc fs d).ret = false := by
  unfold TinyConfig.saveDoc FS.saveOK at *
  cases howf : fs.openWFail <;> cases hwf : fs.writeFail <;> simp_all

/-- Reduction of setInternal on the success path. -/
theorem setInternal_ok (tc : TinyConfig) (fs : FS) (k : String) (v : JVal)
    (hI : tc.isInitialized = true) (hL : fs.loadOK = true)
    (hsz : ¬ (serializeDoc (docSet fs.doc k v)).utf8ByteSize > tc.maxFileSize)
    (hS : fs.saveOK = true) :
    TinyConfig.setInternal tc fs k v
      = ⟨true, { tc with lastError := .None },
          { fs with file := some (.good (docSet fs.doc k v)) },
          [.read, .write]⟩ := by
  unfold TinyConfig.setInternal
  rw [loadDoc_ok tc fs hL]
  simp only [hI, Bool.not_true, Bool.false_eq_true, if_false]
  simp only [hsz, if_false]
  rw [saveDoc_ok _ fs (docSet fs.doc k v) hS]
  simp

/-- Reduction of setInternal when the serialized document exceeds the
bound: the store refuses and nothing is written. -/
theorem setInternal_sizeFail (tc : TinyConfig) (fs : FS) (k : String) (v : JVal)
    (hI : tc.isInitialized = true) (hL : fs.loadOK = true)
    (hsz : (serializeDoc (docSet fs.doc k v)).utf8ByteSize > tc.maxFileSize) :
    TinyConfig.setInternal tc fs k v
      = ⟨false, { tc with lastError := .FileSizeTooLarge }, fs, [.read]⟩ := by
  unfold TinyConfig.setInternal
  rw [loadDoc_ok tc fs hL]
  simp [hI, hsz]

/-- setInternal reports failure when the load fails. -/
theorem setInternal_ret_false_of_loadFail (tc : TinyConfig) (fs : FS) (k : String)
    (v : JVal) (hL : fs.loadOK = false) :
    (TinyConfig.setInternal tc fs k v).ret = false := by
  unfold TinyConfig.setInternal
  cases hI : tc.isInitialized
  · simp
  · simp only [Bool.not_true, Bool.false_eq_true, if_false]
    rw [loadDoc_fail tc fs hL]

/-- setInternal reports failure when the save fails. -/
theorem setInternal_ret_false_of_saveFail (tc : TinyConfig) (fs : FS) (k : String)
    (v : JVal) (hI : tc.isInitialized = true) (hL : fs.loadOK = true)
    (hS : fs.saveOK = false) :
    (TinyConfig.setInternal tc fs k v).ret = false := by
  unfold TinyConfig.setInternal
  rw [loadDoc_ok tc fs hL]
  simp only [hI, Bool.not_true, Bool.false_eq_true, if_false]
  by_cases hsz : (serializeDoc (docSet fs.doc k v)).utf8ByteSize > tc.maxFileSize
  · simp [hsz]
  · simp only [hsz, if_false]
    rw [saveDoc_ret_false _ fs (docSet fs.doc k v) hS]
    simp

/-- Inversion of a successful setInternal: the store was initialized,
load and save succeeded, the bound was respected, and the file now holds
the updated document. -/
theorem setInternal_success_inv (tc : TinyConfig) (fs : FS) (k : String) (v : JVal)
    (h : (TinyConfig.setInternal tc fs k v).ret = true) :
    tc.isInitialized = true ∧ fs.loadOK = true ∧ fs.saveOK = true ∧
    (serializeDoc (docSet fs.doc k v)).utf8ByteSize ≤ tc.maxFileSize ∧
    TinyConfig.setInternal tc fs k v
      = ⟨true, { tc with lastError := .None },
          { fs with file := some (.good (docSet fs.doc k v)) },
          [.read, .write]⟩ := by
  by_cases hI : tc.isInitialized = true
  · by_cases hL : fs.loadOK = true
    · by_cases hsz : (serializeDoc (docSet fs.doc k v)).utf8ByteSize > tc.maxFileSize
      · rw [setInternal_sizeFail tc fs k v hI hL hsz] at h
        simp at h
      · by_cases hS : fs.saveOK = true
        · exact ⟨hI, hL, hS, by omega, setInternal_ok tc fs k v hI hL hsz hS⟩
        · rw [setInternal_ret_false_of_saveFail tc fs k v hI hL
            (Bool.eq_false_iff.mpr hS)] at h
          simp at h
    · rw [setInternal_ret_false_of_loadFail tc fs k v (Bool.eq_false_iff.mpr hL)] at h
      simp at h
  · unfold TinyConfig.setInternal at h
    simp [Bool.eq_false_iff.mpr hI] at h

/-- Reduction of getInt under a successful load. -/
theorem getInt_ok (tc : TinyConfig) (fs : FS) (k : String) (fb : Int)
    (hI : tc.isInitialized = true) (hL : fs.loadOK = true) :
    TinyConfig.getInt tc fs k fb
      = ⟨(match docGet fs.doc k with | some (.jint n) => n | _ => fb),
          { tc with lastError := .None }, fs, [.read]⟩ := by
  unfold TinyConfig.getInt
  rw [loadDoc_ok tc fs hL]
  simp [hI]

/-- Reduction of getFloat under a successful load. -/
theorem getFloat_ok (tc : TinyConfig) (fs : FS) (k : String) (fb : String)
    (hI : tc.isInitialized = true) (hL : fs.loadOK = true) :
    TinyConfig.getFloat tc fs k fb
      = ⟨(match docGet fs.doc k with | some (.jfloat t) => t | _ => fb),
          { tc with lastError := .None }, fs, [.read]⟩ := by
  unfold TinyConfig.getFloat
  rw [loadDoc_ok tc fs hL]
  simp [hI]

/-- Reduction of getString under a successful load. -/
theorem getString_ok (tc : TinyConfig) (fs : FS) (k : String) (fb : String)
    (hI : tc.isInitialized = true) (hL : fs.loadOK = true) :
    TinyConfig.getString tc fs k fb
      = ⟨(match docGet fs.doc k with | some (.jstr s) => s | _ => fb),
          { tc with lastError := .None }, fs, [.read]⟩ := by
  unfold TinyConfig.getString
  rw [loadDoc_ok tc fs hL]
  simp [hI]

/-- A running store with the default size bound, used as concrete input. -/
def tcOn : TinyConfig := ⟨.None, true, 2048⟩

/-- A running store with the minimal size bound, used as concrete input. -/
def tcOn9 : TinyConfig := ⟨.None, true, 9⟩

/-- A healthy filesystem holding a given document, used as concrete
input. -/
def fsWith (d : Doc) : FS := ⟨some (.good d), false, false, false, false⟩

/-- Claim C1: for every key and every supported value whose serialized
form fits under the size bound, a successful set followed by a get of the
same type with any fallback returns exactly the value that was set.
Floats are carried as their serialized decimal literals, so the
round-trip is exact at this level, which is within any floating-point
tolerance. -/
theorem set_get_roundtrip (tc : TinyConfig) (fs : FS) (k : String) (v : JVal)
    (fbi : Int) (fbf fbs : String)
    (h : (TinyConfig.set tc fs k v).ret = true) :
    (∀ n, v = .jint n →
      (TinyConfig.getInt (TinyConfig.set tc fs k v).tc
        (TinyConfig.set tc fs k v).fs k fbi).ret = n) ∧
    (∀ t, v = .jfloat t →
      (TinyConfig.getFloat (TinyConfig.set tc fs k v).tc
        (TinyConfig.set tc fs k v).fs k fbf).ret = t) ∧
    (∀ s, v = .jstr s →
      (TinyConfig.getString (TinyConfig.set tc fs k v).tc
        (TinyConfig.set tc fs k v).fs k fbs).ret = s) := by
  unfold TinyConfig.set at h ⊢
  obtain ⟨hI, hL, hS, hsz, heq⟩ := setInternal_success_inv tc fs k v h
  obtain ⟨hR, hF⟩ := (loadOK_iff fs).mp hL
  rw [heq]
  have hL2 : ({ fs with file := some (.good (docSet fs.doc k v)) } : FS).loadOK = true := by
    exact (loadOK_iff _).mpr ⟨hR, rfl⟩
  refine ⟨?_, ?_, ?_⟩ <;> intro x hx <;> subst hx
  · have hred : (TinyConfig.getInt { tc with lastError := .None }
        { fs with file := some (.good (docSet fs.doc k (.jint x))) } k fbi).ret = x := by
      rw [getInt_ok { tc with lastError := .None }
        { fs with file := some (.good (docSet fs.doc k (.jint x))) } k fbi hI hL2]
      simp [FS.doc, docGet_docSet]
    exact hred
  · have hred : (TinyConfig.getFloat { tc with lastError := .None }
        { fs with file := some (.good (docSet fs.doc k (.jfloat x))) } k fbf).ret = x := by
      rw [getFloat_ok { tc with lastError := .None }
        { fs with file := some (.good (docSet fs.doc k (.jfloat x))) } k fbf hI hL2]
      simp [FS.doc, docGet_docSet]
    exact hred
  · have hred : (TinyConfig.getString { tc with lastError := .None }
        { fs with file := some (.good (docSet fs.doc k (.jstr x))) } k fbs).ret = x := by
      rw [getString_ok { tc with lastError := .None }
        { fs with file := some (.good (docSet fs.doc k (.jstr x))) } k fbs hI hL2]
      simp [FS.doc, docGet_docSet]
    exact hred

/-- Claim C1 witness: on a concrete running store, setting integer 7 at a
key and reading it back with fallback 0 returns 7. -/
theorem set_get_roundtrip_witness :
    (TinyConfig.getInt (TinyConfig.set tcOn (fsWith []) "k" (.jint 7)).tc
      (TinyConfig.set tcOn (fsWith []) "k" (.jint 7)).fs "k" 0).ret = 7 :=
  (set_get_roundtrip tcOn (fsWith []) "k" (.jint 7) 0 "" "" (by decide)).1 7 rfl

/-- Claim C2: when the serialized document after the assignment exceeds
the size bound, set fails with FileSizeTooLarge, the filesystem (and so
the on-disk file) is untouched, and no write is performed. -/
theorem set_size_overflow_rejected (tc : TinyConfig) (fs : FS) (k : String) (v : JVal)
    (hI : tc.isInitialized = true) (hL : fs.loadOK = true)
    (hsz : (serializeDoc (docSet fs.doc k v)).utf8ByteSize > tc.maxFileSize) :
    (TinyConfig.set tc fs k v).ret = false ∧
    (TinyConfig.set tc fs k v).tc.lastError = .FileSizeTooLarge ∧
    (TinyConfig.set tc fs k v).fs = fs ∧
    FsEvent.write ∉ (TinyConfig.set tc fs k v).tr := by
  unfold TinyConfig.set
  rw [setInternal_sizeFail tc fs k v hI hL hsz]
  simp

/-- Claim C2 witness: with bound 9, setting integer 1 at a four-byte key
serializes to ten bytes and is rejected with the file untouched. -/
theorem set_size_overflow_rejected_witness :
    (TinyConfig.set tcOn9 (fsWith []) "abcd" (.jint 1)).ret = false ∧
    (TinyConfig.set tcOn9 (fsWith []) "abcd" (.jint 1)).tc.lastError = .FileSizeTooLarge ∧
    (TinyConfig.set tcOn9 (fsWith []) "abcd" (.jint 1)).fs = fsWith [] ∧
    FsEvent.write ∉ (TinyConfig.set tcOn9 (fsWith []) "abcd" (.jint 1)).tr :=
  set_size_overflow_rejected tcOn9 (fsWith []) "abcd" (.jint 1) rfl rfl (by decide)

/-- True when the document holds an integer at the key. -/
def isIntAt (d : Doc) (k : String) : Bool :=
  match docGet d k with
  | some (.jint _) => true
  | _ => false

/-- True when the document holds a float at the key. -/
def isFloatAt (d : Doc) (k : String) : Bool :=
  match docGet d k with
  | some (.jfloat _) => true
  | _ => false

/-- True when the document holds a string at the key. -/
def isStrAt (d : Doc) (k : String) : Bool :=
  match docGet d k with
  | some (.jstr _) => true
  | _ => false

/-- Claim C4: on an initialized store whose document loads successfully,
each typed getter returns the caller-supplied fallback and clears the
error to None whenever the key is absent or its value is not of the
requested type. -/
theorem get_missing_returns_fallback (tc : TinyConfig) (fs : FS) (k : String)
    (fbi : Int) (fbf fbs : String)
    (hI : tc.isInitialized = true) (hL : fs.loadOK = true) :
    (isIntAt fs.doc k = false →
      (TinyConfig.getInt tc fs k fbi).ret = fbi ∧
      (TinyConfig.getInt tc fs k fbi).tc.lastError = .None) ∧
    (isFloatAt fs.doc k = false →
      (TinyConfig.getFloat tc fs k fbf).ret = fbf ∧
      (TinyConfig.getFloat tc fs k fbf).tc.lastError = .None) ∧
    (isStrAt fs.doc k = false →
      (TinyConfig.getString tc fs k fbs).ret = fbs ∧
      (TinyConfig.getString tc fs k fbs).tc.lastError = .None) := by
  rw [getInt_ok tc fs k fbi hI hL, getFloat_ok tc fs k fbf hI hL,
    getString_ok tc fs k fbs hI hL]
  unfold isIntAt isFloatAt isStrAt
  rcases docGet fs.doc k with _ | (n | t | s) <;> simp

/-- Claim C4 witness: on a concrete store holding only a string at key b,
getInt of an absent key a and getFloat and getString of mismatched or
absent keys return the fallbacks with the error cleared. -/
theorem get_missing_returns_fallback_witness :
    (isIntAt (fsWith [("b", .jstr "x")]).doc "a" = false →
      (TinyConfig.getInt tcOn (fsWith [("b", .jstr "x")]) "a" 41).ret = 41 ∧
      (TinyConfig.getInt tcOn (fsWith [("b", .jstr "x")]) "a" 41).tc.lastError = .None) ∧
    (isFloatAt (fsWith [("b", .jstr "x")]).doc "a" = false →
      (TinyConfig.getFloat tcOn (fsWith [("b", .jstr "x")]) "a" "1.5").ret = "1.5" ∧
      (TinyConfig.getFloat tcOn (fsWith [("b", .jstr "x")]) "a" "1.5").tc.lastError = .None) ∧
    (isStrAt (fsWith [("b", .jstr "x")]).doc "a" = false →
      (TinyConfig.getString tcOn (fsWith [("b", .jstr "x")]) "a" "fb").ret = "fb" ∧
      (TinyConfig.getString tcOn (fsWith [("b", .jstr "x")]) "a" "fb").tc.lastError = .None) :=
  get_missing_returns_fallback tcOn (fsWith [("b", .jstr "x")]) "a" 41 "1.5" "fb" rfl rfl

/-- Claim C5: setMaxFileSize succeeds exactly on sizes from 9 to 4096
inclusive, updating the bound and clearing the error; smaller sizes fail
with FileSizeTooSmall, larger ones with FileSizeTooLarge, and on failure
the existing bound is kept; the filesystem is never touched. -/
theorem setMaxFileSize_range (tc : TinyConfig) (fs : FS) (n : Nat) :
    ((TinyConfig.setMaxFileSize tc fs n).ret = true ↔ 9 ≤ n ∧ n ≤ 4096) ∧
    ((TinyConfig.setMaxFileSize tc fs n).tc.maxFileSize
      = if 9 ≤ n ∧ n ≤ 4096 then n else tc.maxFileSize) ∧
    ((TinyConfig.setMaxFileSize tc fs n).tc.lastError
      = if n < 9 then .FileSizeTooSmall
        else if n ≤ 4096 then .None else .FileSizeTooLarge) ∧
    (TinyConfig.setMaxFileSize tc fs n).fs = fs ∧
    (TinyConfig.setMaxFileSize tc fs n).tr = [] := by
  unfold TinyConfig.setMaxFileSize
  by_cases h1 : n < 9
  · have hno : ¬ (9 ≤ n ∧ n ≤ 4096) := by omega
    simp [h1, hno]
  · by_cases h2 : n > 4096
    · have hno : ¬ (9 ≤ n ∧ n ≤ 4096) := by omega
      have h4 : ¬ n ≤ 4096 := by omega
      simp [h1, h2, hno, h4]
    · have h3 : 9 ≤ n ∧ n ≤ 4096 := ⟨by omega, by omega⟩
      have h4 : n ≤ 4096 := by omega
      simp [h1, h2, h3, h4]

/-- Claim C8: resetConfig ignores the initialized flag entirely; whenever
the file can be opened for truncating write it writes the empty object,
clears the error and returns true, so every previously set key is absent
afterward; when the open fails it returns false with FileCreateFailed and
leaves the filesystem untouched. -/
theorem resetConfig_spec (tc tc2 : TinyConfig) (fs : FS) :
    ((TinyConfig.resetConfig tc fs).ret = (TinyConfig.resetConfig tc2 fs).ret ∧
      (TinyConfig.resetConfig tc fs).fs = (TinyConfig.resetConfig tc2 fs).fs) ∧
    (fs.openWFail = false →
      (TinyConfig.resetConfig tc fs).ret = true ∧
      (TinyConfig.resetConfig tc fs).fs.file = some (.good []) ∧
      (TinyConfig.resetConfig tc fs).tc.lastError = .None ∧
      ∀ k, docGet (TinyConfig.resetConfig tc fs).fs.doc k = none) ∧
    (fs.openWFail = true →
      (TinyConfig.resetConfig tc fs).ret = false ∧
      (TinyConfig.resetConfig tc fs).tc.lastError = .FileCreateFailed ∧
      (TinyConfig.resetConfig tc fs).fs = fs) := by
  unfold TinyConfig.resetConfig
  cases h : fs.openWFail <;> simp [FS.doc, docGet]

/-- Claim C8 witness: on an uninitialized store over a healthy filesystem
holding one key, resetConfig succeeds, empties the document and clears
the error, agreeing with what it does on an initialized store. -/
theorem resetConfig_spec_witness :
    ((TinyConfig.resetConfig ⟨.None, false, 2048⟩ (fsWith [("a", .jint 1)])).ret
        = (TinyConfig.resetConfig tcOn (fsWith [("a", .jint 1)])).ret ∧
      (TinyConfig.resetConfig ⟨.None, false, 2048⟩ (fsWith [("a", .jint 1)])).fs
        = (TinyConfig.resetConfig tcOn (fsWith [("a", .jint 1)])).fs) ∧
    ((fsWith [("a", .jint 1)]).openWFail = false →
      (TinyConfig.resetConfig ⟨.None, false, 2048⟩ (fsWith [("a", .jint 1)])).ret = true ∧
      (TinyConfig.resetConfig ⟨.None, false, 2048⟩ (fsWith [("a", .jint 1)])).fs.file
        = some (.good []) ∧
      (TinyConfig.resetConfig ⟨.None, false, 2048⟩
          (fsWith [("a", .jint 1)])).tc.lastError = .None ∧
      ∀ k, docGet (TinyConfig.resetConfig ⟨.None, false, 2048⟩
          (fsWith [("a", .jint 1)])).fs.doc k = none) ∧
    ((fsWith [("a", .jint 1)]).openWFail = true →
      (TinyConfig.resetConfig ⟨.None, false, 2048⟩ (fsWith [("a", .jint 1)])).ret = false ∧
      (TinyConfig.resetConfig ⟨.None, false, 2048⟩
          (fsWith [("a", .jint 1)])).tc.lastError = .FileCreateFailed ∧
      (TinyConfig.resetConfig ⟨.None, false, 2048⟩ (fsWith [("a", .jint 1)])).fs
        = fsWith [("a", .jint 1)]) :=
  resetConfig_spec ⟨.None, false, 2048⟩ tcOn (fsWith [("a", .jint 1)])

/-- A failing save performs no full write. -/
theorem saveDoc_tr_fail (tc : TinyConfig) (fs : FS) (d : Doc) (h : fs.saveOK = false) :
    (TinyConfig.saveDoc tc fs d).tr = [] := by
  unfold TinyConfig.saveDoc FS.saveOK at *
  cases howf : fs.openWFail <;> cases hwf : fs.writeFail <;> simp_all

/-- Claim C6: on an initialized store whose document loads successfully,
deleting an absent key returns false with the error cleared and without
touching the file; deleting a present key removes it and persists, and
returns true exactly when the save succeeded. -/
theorem deleteKey_spec (tc : TinyConfig) (fs : FS) (k : String)
    (hI : tc.isInitialized = true) (hL : fs.loadOK = true) :
    (containsKey fs.doc k = false →
      (TinyConfig.deleteKey tc fs k).ret = false ∧
      (TinyConfig.deleteKey tc fs k).tc.lastError = .None ∧
      (TinyConfig.deleteKey tc fs k).fs = fs ∧
      FsEvent.write ∉ (TinyConfig.deleteKey tc fs k).tr) ∧
    (containsKey fs.doc k = true →
      ((TinyConfig.deleteKey tc fs k).ret = true ↔ fs.saveOK = true) ∧
      (fs.saveOK = true →
        (TinyConfig.deleteKey tc fs k).fs.file = some (.good (docRemove fs.doc k)) ∧
        containsKey (TinyConfig.deleteKey tc fs k).fs.doc k = false ∧
        (TinyConfig.deleteKey tc fs k).tc.lastError = .None)) := by
  unfold TinyConfig.deleteKey
  rw [loadDoc_ok tc fs hL]
  simp only [hI, Bool.not_true, Bool.false_eq_true, if_false]
  constructor
  · intro habs
    simp [habs]
  · intro hpres
    simp only [hpres, Bool.not_true, Bool.false_eq_true, if_false]
    by_cases hS : fs.saveOK = true
    · rw [saveDoc_ok _ fs (docRemove fs.doc k) hS]
      simp [hS, FS.doc, containsKey_docRemove_self]
    · have hS2 := Bool.eq_false_iff.mpr hS
      rw [saveDoc_ret_false _ fs (docRemove fs.doc k) hS2]
      simp [hS2]

/-- Claim C6 witness: deleting the present key a on a concrete healthy
store removes it, persists, and succeeds. -/
theorem deleteKey_spec_witness :
    (containsKey (fsWith [("a", .jint 1)]).doc "a" = false →
      (TinyConfig.deleteKey tcOn (fsWith [("a", .jint 1)]) "a").ret = false ∧
      (TinyConfig.deleteKey tcOn (fsWith [("a", .jint 1)]) "a").tc.lastError = .None ∧
      (TinyConfig.deleteKey tcOn (fsWith [("a", .jint 1)]) "a").fs = fsWith [("a", .jint 1)] ∧
      FsEvent.write ∉ (TinyConfig.deleteKey tcOn (fsWith [("a", .jint 1)]) "a").tr) ∧
    (containsKey (fsWith [("a", .jint 1)]).doc "a" = true →
      ((TinyConfig.deleteKey tcOn (fsWith [("a", .jint 1)]) "a").ret = true
        ↔ (fsWith [("a", .jint 1)]).saveOK = true) ∧
      ((fsWith [("a", .jint 1)]).saveOK = true →
        (TinyConfig.deleteKey tcOn (fsWith [("a", .jint 1)]) "a").fs.file
          = some (.good (docRemove (fsWith [("a", .jint 1)]).doc "a")) ∧
        containsKey (TinyConfig.deleteKey tcOn
          (fsWith [("a", .jint 1)]) "a").fs.doc "a" = false ∧
        (TinyConfig.deleteKey tcOn (fsWith [("a", .jint 1)]) "a").tc.lastError = .None)) :=
  deleteKey_spec tcOn (fsWith [("a", .jint 1)]) "a" rfl rfl

/-- A filesystem holding one key whose open-for-write is refused, used as
a concrete counterexample input. -/
def fsSaveFail : FS := ⟨some (.good [("a", .jint 1)]), false, false, true, false⟩

/-- Claim C7 counterexample: on an initialized store whose document loads
successfully and contains the key a, deleteKeys on the collection holding
exactly a does remove the key from the document, yet returns false
because the save fails, so the return value is not equivalent to at least
one removal having occurred. -/
theorem deleteKeys_returns_removal_cex :
    tcOn.isInitialized = true ∧ fsSaveFail.loadOK = true ∧
    List.any ["a"] (fun k2 => containsKey fsSaveFail.doc k2) = true ∧
    (TinyConfig.deleteKeysList tcOn fsSaveFail ["a"]).ret = false := by decide

/-- Claim C7 amended: on an initialized store whose document loads
successfully, deleteKeys removes from the document exactly the keys of
the collection that are present, performs at most one save, performs it
when at least one key was removed and the save path is healthy, and
returns true exactly when at least one removal occurred and the save
succeeded. -/
theorem deleteKeys_spec (tc : TinyConfig) (fs : FS) (keys : List String)
    (hI : tc.isInitialized = true) (hL : fs.loadOK = true) :
    ((TinyConfig.deleteKeysList tc fs keys).ret = true ↔
      (keys.any (fun k2 => containsKey fs.doc k2) = true ∧ fs.saveOK = true)) ∧
    (keys.any (fun k2 => containsKey fs.doc k2) = false →
      (TinyConfig.deleteKeysList tc fs keys).ret = false ∧
      (TinyConfig.deleteKeysList tc fs keys).tc.lastError = .None ∧
      (TinyConfig.deleteKeysList tc fs keys).fs = fs ∧
      FsEvent.write ∉ (TinyConfig.deleteKeysList tc fs keys).tr) ∧
    (keys.any (fun k2 => containsKey fs.doc k2) = true → fs.saveOK = true →
      (TinyConfig.deleteKeysList tc fs keys).fs.file
        = some (.good (fs.doc.filter (fun p => !(decide (p.1 ∈ keys))))) ∧
      (TinyConfig.deleteKeysList tc fs keys).tc.lastError = .None ∧
      (TinyConfig.deleteKeysList tc fs keys).tr.count FsEvent.write = 1) ∧
    (TinyConfig.deleteKeysList tc fs keys).tr.count FsEvent.write ≤ 1 := by
  unfold TinyConfig.deleteKeysList
  rw [loadDoc_ok tc fs hL]
  simp only [hI, Bool.not_true, Bool.false_eq_true, if_false]
  rw [deleteLoop_snd keys fs.doc false, deleteLoop_fst keys fs.doc false]
  simp only [Bool.false_or]
  by_cases hA : keys.any (fun k2 => containsKey fs.doc k2) = true
  · simp only [hA, if_true]
    by_cases hS : fs.saveOK = true
    · rw [saveDoc_ok _ fs _ hS]
      simp [hA, hS]
    · have hS2 := Bool.eq_false_iff.mpr hS
      rw [saveDoc_ret_false _ fs _ hS2]
      simp [hA, hS2, saveDoc_tr_fail _ fs _ hS2]
  · have hA2 := Bool.eq_false_iff.mpr hA
    simp [hA2]

/-- Claim C7 amended witness: deleting the collection of keys a and c on
a concrete healthy store holding a and b removes exactly a, performs one
save, and returns true. -/
theorem deleteKeys_spec_witness :
    ((TinyConfig.deleteKeysList tcOn (fsWith [("a", .jint 1), ("b", .jstr "x")])
        ["a", "c"]).ret = true ↔
      (List.any ["a", "c"] (fun k2 =>
        containsKey (fsWith [("a", .jint 1), ("b", .jstr "x")]).doc k2) = true ∧
       (fsWith [("a", .jint 1), ("b", .jstr "x")]).saveOK = true)) ∧
    (List.any ["a", "c"] (fun k2 =>
        containsKey (fsWith [("a", .jint 1), ("b", .jstr "x")]).doc k2) = false →
      (TinyConfig.deleteKeysList tcOn (fsWith [("a", .jint 1), ("b", .jstr "x")])
        ["a", "c"]).ret = false ∧
      (TinyConfig.deleteKeysList tcOn (fsWith [("a", .jint 1), ("b", .jstr "x")])
        ["a", "c"]).tc.lastError = .None ∧
      (TinyConfig.deleteKeysList tcOn (fsWith [("a", .jint 1), ("b", .jstr "x")])
        ["a", "c"]).fs = fsWith [("a", .jint 1), ("b", .jstr "x")] ∧
      FsEvent.write ∉ (TinyConfig.deleteKeysList tcOn
        (fsWith [("a", .jint 1), ("b", .jstr "x")]) ["a", "c"]).tr) ∧
    (List.any ["a", "c"] (fun k2 =>
        containsKey (fsWith [("a", .jint 1), ("b", .jstr "x")]).doc k2) = true →
      (fsWith [("a", .jint 1), ("b", .jstr "x")]).saveOK = true →
      (TinyConfig.deleteKeysList tcOn (fsWith [("a", .jint 1), ("b", .jstr "x")])
          ["a", "c"]).fs.file
        = some (.good ((fsWith [("a", .jint 1), ("b", .jstr "x")]).doc.filter
            (fun p => !(decide (p.1 ∈ (["a", "c"] : List String)))))) ∧
      (TinyConfig.deleteKeysList tcOn (fsWith [("a", .jint 1), ("b", .jstr "x")])
        ["a", "c"]).tc.lastError = .None ∧
      (TinyConfig.deleteKeysList tcOn (fsWith [("a", .jint 1), ("b", .jstr "x")])
        ["a", "c"]).tr.count FsEvent.write = 1) ∧
    (TinyConfig.deleteKeysList tcOn (fsWith [("a", .jint 1), ("b", .jstr "x")])
      ["a", "c"]).tr.count FsEvent.write ≤ 1 :=
  deleteKeys_spec tcOn (fsWith [("a", .jint 1), ("b", .jstr "x")]) ["a", "c"] rfl rfl

/-- The element-by-element copy of the first count array elements
coincides with the list prefix when count is within bounds. -/
theorem takeCount_eq_take (keys : List String) (count : Nat) (h : count ≤ keys.length) :
    takeCount keys count = keys.take count := by
  induction keys generalizing count with
  | nil =>
    have hc : count = 0 := by simpa using h
    simp [hc, takeCount]
  | cons a t ih =>
    cases count with
    | zero => simp [takeCount]
    | succ c =>
      have h2 := ih c (by simpa using h)
      unfold takeCount at h2 ⊢
      rw [List.range_succ_eq_map]
      simp only [List.map_cons, List.getD_cons_zero, List.map_map, List.take_succ_cons]
      have hcomp : ((fun i => (a :: t).getD i "") ∘ Nat.succ)
          = (fun i => t.getD i "") := by
        funext i
        simp [List.getD_cons_succ]
      rw [hcomp, h2]

/-- Claim C10: the array overload of deleteKeys is behaviorally
equivalent to the vector overload applied to the first count elements of
the array: same result, same store state, same filesystem state, same
trace. -/
theorem deleteKeysArr_equiv (tc : TinyConfig) (fs : FS) (keys : List String)
    (count : Nat) (h : count ≤ keys.length) :
    TinyConfig.deleteKeysArr tc fs keys count
      = TinyConfig.deleteKeysList tc fs (keys.take count) := by
  unfold TinyConfig.deleteKeysArr
  rw [takeCount_eq_take keys count h]

/-- Claim C10 witness: the two overloads agree on a concrete store, a
two-element array and count one. -/
theorem deleteKeysArr_equiv_witness :
    TinyConfig.deleteKeysArr tcOn (fsWith [("a", .jint 1)]) ["a", "b"] 1
      = TinyConfig.deleteKeysList tcOn (fsWith [("a", .jint 1)]) (["a", "b"].take 1) :=
  deleteKeysArr_equiv tcOn (fsWith [("a", .jint 1)]) ["a", "b"] 1 (by decide)

/-- Whenever the file exists and opening for read is not refused, loadDoc
performs exactly one full read. -/
theorem loadDoc_tr_read (tc : TinyConfig) (fs : FS) (hR : fs.openRFail = false)
    (hf : fs.file.isSome = true) :
    (TinyConfig.loadDoc tc fs).tr = [FsEvent.read] := by
  unfold TinyConfig.loadDoc
  cases hff : fs.file with
  | none => rw [hff] at hf; simp at hf
  | some c => cases c <;> simp [hR]

/-- The trace of setInternal on an initialized store over an existing,
readable file always contains a full read. -/
theorem setInternal_read_mem (tc : TinyConfig) (fs : FS) (k : String) (v : JVal)
    (hI : tc.isInitialized = true) (hR : fs.openRFail = false)
    (hf : fs.file.isSome = true) :
    FsEvent.read ∈ (TinyConfig.setInternal tc fs k v).tr := by
  obtain ⟨file, bf, orf, owf, wf⟩ := fs
  simp only [FS.openRFail] at hR
  subst hR
  rcases file with _ | (d | _)
  · simp at hf
  · cases owf <;> cases wf <;>
      simp [TinyConfig.setInternal, TinyConfig.loadDoc, TinyConfig.saveDoc, hI] <;>
      split_ifs <;> simp
  · simp [TinyConfig.setInternal, TinyConfig.loadDoc, hI]

/-- The trace of getInt on an initialized store is exactly the trace of
its load. -/
theorem getInt_tr (tc : TinyConfig) (fs : FS) (k : String) (fb : Int)
    (hI : tc.isInitialized = true) :
    (TinyConfig.getInt tc fs k fb).tr = (TinyConfig.loadDoc tc fs).tr := by
  unfold TinyConfig.getInt
  simp only [hI, Bool.not_true, Bool.false_eq_true, if_false]
  cases h : (TinyConfig.loadDoc tc fs).ret <;> simp

/-- The trace of getFloat on an initialized store is exactly the trace of
its load. -/
theorem getFloat_tr (tc : TinyConfig) (fs : FS) (k : String) (fb : String)
    (hI : tc.isInitialized = true) :
    (TinyConfig.getFloat tc fs k fb).tr = (TinyConfig.loadDoc tc fs).tr := by
  unfold TinyConfig.getFloat
  simp only [hI, Bool.not_true, Bool.false_eq_true, if_false]
  cases h : (TinyConfig.loadDoc tc fs).ret <;> simp

/-- The trace of getString on an initialized store is exactly the trace
of its load. -/
theorem getString_tr (tc : TinyConfig) (fs : FS) (k : String) (fb : String)
    (hI : tc.isInitialized = true) :
    (TinyConfig.getString tc fs k fb).tr = (TinyConfig.loadDoc tc fs).tr := by
  unfold TinyConfig.getString
  simp only [hI, Bool.not_true, Bool.false_eq_true, if_false]
  cases h : (TinyConfig.loadDoc tc fs).ret <;> simp

/-- The trace of getAll on an initialized store over an existing,
readable file always contains a full read. -/
theorem getAll_read_mem (tc : TinyConfig) (fs : FS) (fb : String)
    (hI : tc.isInitialized = true) (hR : fs.openRFail = false)
    (hf : fs.file.isSome = true) :
    FsEvent.read ∈ (TinyConfig.getAll tc fs fb).tr := by
  obtain ⟨file, bf, orf, owf, wf⟩ := fs
  simp only [FS.openRFail] at hR
  subst hR
  rcases file with _ | (d | _)
  · simp at hf
  · simp [TinyConfig.getAll, TinyConfig.loadDoc, hI]
    split_ifs <;> simp
  · simp [TinyConfig.getAll, TinyConfig.loadDoc, hI]

/-- The trace of getAllJson on an initialized store is exactly the trace
of its load. -/
theorem getAllJson_tr (tc : TinyConfig) (fs : FS) (hI : tc.isInitialized = true) :
    (TinyConfig.getAllJson tc fs).tr = (TinyConfig.loadDoc tc fs).tr := by
  unfold TinyConfig.getAllJson
  simp only [hI, Bool.not_true, Bool.false_eq_true, if_false]
  cases h : (TinyConfig.loadDoc tc fs).ret <;> simp

/-- The trace of deleteKey on an initialized store over an existing,
readable file always contains a full read. -/
theorem deleteKey_read_mem (tc : TinyConfig) (fs : FS) (k : String)
    (hI : tc.isInitialized = true) (hR : fs.openRFail = false)
    (hf : fs.file.isSome = true) :
    FsEvent.read ∈ (TinyConfig.deleteKey tc fs k).tr := by
  obtain ⟨file, bf, orf, owf, wf⟩ := fs
  simp only [FS.openRFail] at hR
  subst hR
  rcases file with _ | (d | _)
  · simp at hf
  · cases owf <;> cases wf <;>
      simp [TinyConfig.deleteKey, TinyConfig.loadDoc, TinyConfig.saveDoc, hI] <;>
      split_ifs <;> simp
  · simp [TinyConfig.deleteKey, TinyConfig.loadDoc, hI]

/-- The trace of deleteKeys on an initialized store over an existing,
readable file always contains a full read. -/
theorem deleteKeysList_read_mem (tc : TinyConfig) (fs : FS) (keys : List String)
    (hI : tc.isInitialized = true) (hR : fs.openRFail = false)
    (hf : fs.file.isSome = true) :
    FsEvent.read ∈ (TinyConfig.deleteKeysList tc fs keys).tr := by
  obtain ⟨file, bf, orf, owf, wf⟩ := fs
  simp only [FS.openRFail] at hR
  subst hR
  rcases file with _ | (d | _)
  · simp at hf
  · cases owf <;> cases wf <;>
      simp [TinyConfig.deleteKeysList, TinyConfig.loadDoc, TinyConfig.saveDoc, hI] <;>
      split_ifs <;> simp
  · simp [TinyConfig.deleteKeysList, TinyConfig.loadDoc, hI]

/-- A save that reports success found a healthy save path. -/
theorem saveDoc_ret_true_inv (tc : TinyConfig) (fs : FS) (d : Doc)
    (h : (TinyConfig.saveDoc tc fs d).ret = true) : fs.saveOK = true := by
  by_cases hS : fs.saveOK = true
  · exact hS
  · rw [saveDoc_ret_false tc fs d (Bool.eq_false_iff.mpr hS)] at h
    simp at h

/-- A deleteKey that reports a deletion performed a full write. -/
theorem deleteKey_ret_true_write (tc : TinyConfig) (fs : FS) (k : String)
    (h : (TinyConfig.deleteKey tc fs k).ret = true) :
    FsEvent.write ∈ (TinyConfig.deleteKey tc fs k).tr := by
  obtain ⟨file, bf, orf, owf, wf⟩ := fs
  cases hI : tc.isInitialized
  · simp [TinyConfig.deleteKey, hI] at h
  · rcases file with _ | (d | _)
    · simp [TinyConfig.deleteKey, TinyConfig.loadDoc, hI] at h
    · cases orf
      · cases owf
        · cases wf
          · by_cases hc : containsKey d k = true
            · simp [TinyConfig.deleteKey, TinyConfig.loadDoc, TinyConfig.saveDoc, hI, hc]
            · simp [TinyConfig.deleteKey, TinyConfig.loadDoc, hI,
                Bool.eq_false_iff.mpr hc] at h
          · by_cases hc : containsKey d k = true <;>
              simp [TinyConfig.deleteKey, TinyConfig.loadDoc, TinyConfig.saveDoc,
                hI, hc] at h
        · by_cases hc : containsKey d k = true <;>
            simp [TinyConfig.deleteKey, TinyConfig.loadDoc, TinyConfig.saveDoc,
              hI, hc] at h
      · simp [TinyConfig.deleteKey, TinyConfig.loadDoc, hI] at h
    · cases orf <;> simp [TinyConfig.deleteKey, TinyConfig.loadDoc, hI] at h

/-- A deleteKeys that reports a deletion performed a full write. -/
theorem deleteKeysList_ret_true_write (tc : TinyConfig) (fs : FS) (keys : List String)
    (h : (TinyConfig.deleteKeysList tc fs keys).ret = true) :
    FsEvent.write ∈ (TinyConfig.deleteKeysList tc fs keys).tr := by
  obtain ⟨file, bf, orf, owf, wf⟩ := fs
  cases hI : tc.isInitialized
  · simp [TinyConfig.deleteKeysList, hI] at h
  · rcases file with _ | (d | _)
    · simp [TinyConfig.deleteKeysList, TinyConfig.loadDoc, hI] at h
    · cases orf
      · cases owf
        · cases wf
          · by_cases hc : (deleteLoop d false keys).2 = true
            · simp [TinyConfig.deleteKeysList, TinyConfig.loadDoc, TinyConfig.saveDoc,
                hI, hc]
            · simp [TinyConfig.deleteKeysList, TinyConfig.loadDoc, hI,
                Bool.eq_false_iff.mpr hc] at h
          · by_cases hc : (deleteLoop d false keys).2 = true <;>
              simp [TinyConfig.deleteKeysList, TinyConfig.loadDoc, TinyConfig.saveDoc,
                hI, hc] at h
        · by_cases hc : (deleteLoop d false keys).2 = true <;>
            simp [TinyConfig.deleteKeysList, TinyConfig.loadDoc, TinyConfig.saveDoc,
              hI, hc] at h
      · simp [TinyConfig.deleteKeysList, TinyConfig.loadDoc, hI] at h
    · cases orf <;> simp [TinyConfig.deleteKeysList, TinyConfig.loadDoc, hI] at h

/-- Claim C9 counterexample: on an initialized store over a healthy
filesystem, getInt performs a full read and no write at all, so it is
false that every accessor performs a full read followed by a full write
of the backing file. -/
theorem accessor_write_cex :
    tcOn.isInitialized = true ∧
    (TinyConfig.getInt tcOn (fsWith [("a", .jint 1)]) "a" 0).tr = [FsEvent.read] ∧
    FsEvent.write ∉ (TinyConfig.getInt tcOn (fsWith [("a", .jint 1)]) "a" 0).tr := by
  decide

/-- Claim C9 amended: every accessor call on an initialized store whose
file exists and can be opened performs a full read of the backing file on
that very call, so no accessor works from a cross-call in-memory cache of
the document; the class state carries no document between calls.  The
mutating accessors additionally perform a full write whenever they report
success. -/
theorem accessor_no_cache (tc : TinyConfig) (fs : FS) (k : String) (v : JVal)
    (fbi : Int) (fbf fbs fba : String) (keys : List String)
    (hI : tc.isInitialized = true) (hR : fs.openRFail = false)
    (hf : fs.file.isSome = true) :
    FsEvent.read ∈ (TinyConfig.set tc fs k v).tr ∧
    FsEvent.read ∈ (TinyConfig.getInt tc fs k fbi).tr ∧
    FsEvent.read ∈ (TinyConfig.getFloat tc fs k fbf).tr ∧
    FsEvent.read ∈ (TinyConfig.getString tc fs k fbs).tr ∧
    FsEvent.read ∈ (TinyConfig.getAll tc fs fba).tr ∧
    FsEvent.read ∈ (TinyConfig.getAllJson tc fs).tr ∧
    FsEvent.read ∈ (TinyConfig.deleteKey tc fs k).tr ∧
    FsEvent.read ∈ (TinyConfig.deleteKeysList tc fs keys).tr ∧
    ((TinyConfig.set tc fs k v).ret = true →
      FsEvent.write ∈ (TinyConfig.set tc fs k v).tr) ∧
    ((TinyConfig.deleteKey tc fs k).ret = true →
      FsEvent.write ∈ (TinyConfig.deleteKey tc fs k).tr) ∧
    ((TinyConfig.deleteKeysList tc fs keys).ret = true →
      FsEvent.write ∈ (TinyConfig.deleteKeysList tc fs keys).tr) := by
  refine ⟨setInternal_read_mem tc fs k v hI hR hf,
    ?_, ?_, ?_, getAll_read_mem tc fs fba hI hR hf, ?_,
    deleteKey_read_mem tc fs k hI hR hf,
    deleteKeysList_read_mem tc fs keys hI hR hf,
    ?_, deleteKey_ret_true_write tc fs k, deleteKeysList_ret_true_write tc fs keys⟩
  · rw [getInt_tr tc fs k fbi hI, loadDoc_tr_read tc fs hR hf]
    simp
  · rw [getFloat_tr tc fs k fbf hI, loadDoc_tr_read tc fs hR hf]
    simp
  · rw [getString_tr tc fs k fbs hI, loadDoc_tr_read tc fs hR hf]
    simp
  · rw [getAllJson_tr tc fs hI, loadDoc_tr_read tc fs hR hf]
    simp
  · intro hret
    unfold TinyConfig.set at hret ⊢
    obtain ⟨_, _, _, _, heq⟩ := setInternal_success_inv tc fs k v hret
    rw [heq]
    simp

/-- Claim C9 amended witness: on a concrete healthy store holding one
key, every accessor reads the file, and the mutating accessors write when
they report success. -/
theorem accessor_no_cache_witness :
    FsEvent.read ∈ (TinyConfig.set tcOn (fsWith [("a", .jint 1)]) "a" (.jint 2)).tr ∧
    FsEvent.read ∈ (TinyConfig.getInt tcOn (fsWith [("a", .jint 1)]) "a" 0).tr ∧
    FsEvent.read ∈ (TinyConfig.getFloat tcOn (fsWith [("a", .jint 1)]) "a" "0").tr ∧
    FsEvent.read ∈ (TinyConfig.getString tcOn (fsWith [("a", .jint 1)]) "a" "").tr ∧
    FsEvent.read ∈ (TinyConfig.getAll tcOn (fsWith [("a", .jint 1)]) "").tr ∧
    FsEvent.read ∈ (TinyConfig.getAllJson tcOn (fsWith [("a", .jint 1)])).tr ∧
    FsEvent.read ∈ (TinyConfig.deleteKey tcOn (fsWith [("a", .jint 1)]) "a").tr ∧
    FsEvent.read ∈ (TinyConfig.deleteKeysList tcOn (fsWith [("a", .jint 1)]) ["a"]).tr ∧
    ((TinyConfig.set tcOn (fsWith [("a", .jint 1)]) "a" (.jint 2)).ret = true →
      FsEvent.write ∈ (TinyConfig.set tcOn (fsWith [("a", .jint 1)]) "a" (.jint 2)).tr) ∧
    ((TinyConfig.deleteKey tcOn (fsWith [("a", .jint 1)]) "a").ret = true →
      FsEvent.write ∈ (TinyConfig.deleteKey tcOn (fsWith [("a", .jint 1)]) "a").tr) ∧
    ((TinyConfig.deleteKeysList tcOn (fsWith [("a", .jint 1)]) ["a"]).ret = true →
      FsEvent.write ∈ (TinyConfig.deleteKeysList tcOn (fsWith [("a", .jint 1)]) ["a"]).tr) :=
  accessor_no_cache tcOn (fsWith [("a", .jint 1)]) "a" (.jint 2) 0 "0" "" "" ["a"]
    rfl rfl rfl

/-- Byte length of concatenated strings adds up. -/
theorem utf8ByteSize_append (a b : String) :
    (a ++ b).utf8ByteSize = a.utf8ByteSize + b.utf8ByteSize := by
  cases a; cases b
  exact String.utf8Len_append _ _

/-- The serializer always emits at least the two enclosing braces, so a
serialized document never has zero bytes. -/
theorem serializeDoc_size_ne_zero (d : Doc) : (serializeDoc d).utf8ByteSize ≠ 0 := by
  unfold serializeDoc
  rw [utf8ByteSize_append, utf8ByteSize_append]
  have h1 : ("\x7b".utf8ByteSize) = 1 := rfl
  omega

/-- StartTC clears the error exactly when it succeeds. -/
theorem lastError_StartTC (tc : TinyConfig) (fs : FS) :
    ((TinyConfig.StartTC tc fs).tc.lastError = .None
      ↔ (TinyConfig.StartTC tc fs).ret = true) := by
  obtain ⟨file, bf, orf, owf, wf⟩ := fs
  cases hI : tc.isInitialized <;> cases bf <;> cases owf <;>
    rcases file with _ | c <;>
    simp [TinyConfig.StartTC, TinyConfig.resetConfig, hI]

/-- StopTC clears the error exactly when it succeeds. -/
theorem lastError_StopTC (tc : TinyConfig) (fs : FS) :
    ((TinyConfig.StopTC tc fs).tc.lastError = .None
      ↔ (TinyConfig.StopTC tc fs).ret = true) := by
  cases hI : tc.isInitialized <;> simp [TinyConfig.StopTC, hI]

/-- resetConfig clears the error exactly when it succeeds. -/
theorem lastError_resetConfig (tc : TinyConfig) (fs : FS) :
    ((TinyConfig.resetConfig tc fs).tc.lastError = .None
      ↔ (TinyConfig.resetConfig tc fs).ret = true) := by
  cases h : fs.openWFail <;> simp [TinyConfig.resetConfig, h]

/-- setMaxFileSize clears the error exactly when it succeeds. -/
theorem lastError_setMaxFileSize (tc : TinyConfig) (fs : FS) (n : Nat) :
    ((TinyConfig.setMaxFileSize tc fs n).tc.lastError = .None
      ↔ (TinyConfig.setMaxFileSize tc fs n).ret = true) := by
  unfold TinyConfig.setMaxFileSize
  by_cases h1 : n < 9
  · simp [h1]
  · by_cases h2 : n > 4096 <;> simp [h1, h2]

/-- set clears the error exactly when it succeeds. -/
theorem lastError_set (tc : TinyConfig) (fs : FS) (k : String) (v : JVal) :
    ((TinyConfig.set tc fs k v).tc.lastError = .None
      ↔ (TinyConfig.set tc fs k v).ret = true) := by
  obtain ⟨file, bf, orf, owf, wf⟩ := fs
  cases hI : tc.isInitialized
  · simp [TinyConfig.set, TinyConfig.setInternal, hI]
  · rcases file with _ | (d | _)
    · simp [TinyConfig.set, TinyConfig.setInternal, TinyConfig.loadDoc, hI]
    · cases orf
      · by_cases hsz : (serializeDoc (docSet d k v)).utf8ByteSize > tc.maxFileSize
        · simp [TinyConfig.set, TinyConfig.setInternal, TinyConfig.loadDoc, hI, hsz]
        · cases owf <;> cases wf <;>
            simp [TinyConfig.set, TinyConfig.setInternal, TinyConfig.loadDoc,
              TinyConfig.saveDoc, hI, hsz]
      · simp [TinyConfig.set, TinyConfig.setInternal, TinyConfig.loadDoc, hI]
    · cases orf <;>
        simp [TinyConfig.set, TinyConfig.setInternal, TinyConfig.loadDoc, hI]

/-- getInt clears the error exactly when the store is initialized and the
document loads; a missing key is not an error. -/
theorem lastError_getInt (tc : TinyConfig) (fs : FS) (k : String) (fb : Int) :
    ((TinyConfig.getInt tc fs k fb).tc.lastError = .None
      ↔ (tc.isInitialized = true ∧ fs.loadOK = true)) := by
  obtain ⟨file, bf, orf, owf, wf⟩ := fs
  cases hI : tc.isInitialized
  · simp [TinyConfig.getInt, hI]
  · rcases file with _ | (d | _) <;> cases orf <;>
      simp [TinyConfig.getInt, TinyConfig.loadDoc, FS.loadOK, hI]

/-- getFloat clears the error exactly when the store is initialized and
the document loads; a missing key is not an error. -/
theorem lastError_getFloat (tc : TinyConfig) (fs : FS) (k : String) (fb : String) :
    ((TinyConfig.getFloat tc fs k fb).tc.lastError = .None
      ↔ (tc.isInitialized = true ∧ fs.loadOK = true)) := by
  obtain ⟨file, bf, orf, owf, wf⟩ := fs
  cases hI : tc.isInitialized
  · simp [TinyConfig.getFloat, hI]
  · rcases file with _ | (d | _) <;> cases orf <;>
      simp [TinyConfig.getFloat, TinyConfig.loadDoc, FS.loadOK, hI]

/-- getString clears the error exactly when the store is initialized and
the document loads; a missing key is not an error. -/
theorem lastError_getString (tc : TinyConfig) (fs : FS) (k : String) (fb : String) :
    ((TinyConfig.getString tc fs k fb).tc.lastError = .None
      ↔ (tc.isInitialized = true ∧ fs.loadOK = true)) := by
  obtain ⟨file, bf, orf, owf, wf⟩ := fs
  cases hI : tc.isInitialized
  · simp [TinyConfig.getString, hI]
  · rcases file with _ | (d | _) <;> cases orf <;>
      simp [TinyConfig.getString, TinyConfig.loadDoc, FS.loadOK, hI]

/-- getAll clears the error exactly when the store is initialized and the
document loads; the serializer never produces zero bytes. -/
theorem lastError_getAll (tc : TinyConfig) (fs : FS) (fb : String) :
    ((TinyConfig.getAll tc fs fb).tc.lastError = .None
      ↔ (tc.isInitialized = true ∧ fs.loadOK = true)) := by
  obtain ⟨file, bf, orf, owf, wf⟩ := fs
  cases hI : tc.isInitialized
  · simp [TinyConfig.getAll, hI]
  · rcases file with _ | (d | _) <;> cases orf <;>
      simp [TinyConfig.getAll, TinyConfig.loadDoc, FS.loadOK, hI,
        serializeDoc_size_ne_zero]

/-- getAllJson clears the error exactly when the store is initialized and
the document loads. -/
theorem lastError_getAllJson (tc : TinyConfig) (fs : FS) :
    ((TinyConfig.getAllJson tc fs).tc.lastError = .None
      ↔ (tc.isInitialized = true ∧ fs.loadOK = true)) := by
  obtain ⟨file, bf, orf, owf, wf⟩ := fs
  cases hI : tc.isInitialized
  · simp [TinyConfig.getAllJson, hI]
  · rcases file with _ | (d | _) <;> cases orf <;>
      simp [TinyConfig.getAllJson, TinyConfig.loadDoc, FS.loadOK, hI]

/-- deleteKey clears the error exactly when the store is initialized, the
document loads, and either the key is absent (a negative-but-valid
outcome) or the save succeeds. -/
theorem lastError_deleteKey (tc : TinyConfig) (fs : FS) (k : String) :
    ((TinyConfig.deleteKey tc fs k).tc.lastError = .None
      ↔ (tc.isInitialized = true ∧ fs.loadOK = true ∧
          (containsKey fs.doc k = false ∨ fs.saveOK = true))) := by
  obtain ⟨file, bf, orf, owf, wf⟩ := fs
  cases hI : tc.isInitialized
  · simp [TinyConfig.deleteKey, hI]
  · rcases file with _ | (d | _)
    · simp [TinyConfig.deleteKey, TinyConfig.loadDoc, FS.loadOK, hI]
    · cases orf
      · by_cases hc : containsKey d k = true
        · cases owf <;> cases wf <;>
            simp [TinyConfig.deleteKey, TinyConfig.loadDoc, TinyConfig.saveDoc,
              FS.loadOK, FS.saveOK, FS.doc, hI, hc]
        · simp [TinyConfig.deleteKey, TinyConfig.loadDoc, FS.loadOK, FS.doc, hI,
            Bool.eq_false_iff.mpr hc]
      · simp [TinyConfig.deleteKey, TinyConfig.loadDoc, FS.loadOK, hI]
    · cases orf <;> simp [TinyConfig.deleteKey, TinyConfig.loadDoc, FS.loadOK, hI]

/-- deleteKeys clears the error exactly when the store is initialized,
the document loads, and either no listed key is present (a
negative-but-valid outcome) or the save succeeds. -/
theorem lastError_deleteKeys (tc : TinyConfig) (fs : FS) (keys : List String) :
    ((TinyConfig.deleteKeysList tc fs keys).tc.lastError = .None
      ↔ (tc.isInitialized = true ∧ fs.loadOK = true ∧
          (keys.any (fun k2 => containsKey fs.doc k2) = false ∨ fs.saveOK = true))) := by
  obtain ⟨file, bf, orf, owf, wf⟩ := fs
  cases hI : tc.isInitialized
  · simp [TinyConfig.deleteKeysList, hI]
  · rcases file with _ | (d | _)
    · simp [TinyConfig.deleteKeysList, TinyConfig.loadDoc, FS.loadOK, hI]
    · cases orf
      · by_cases hc : keys.any (fun k2 => containsKey d k2) = true
        · cases owf <;> cases wf <;>
            simp [TinyConfig.deleteKeysList, TinyConfig.loadDoc, TinyConfig.saveDoc,
              FS.loadOK, FS.saveOK, FS.doc, deleteLoop_snd, hI, hc]
        · simp [TinyConfig.deleteKeysList, TinyConfig.loadDoc, FS.loadOK, FS.doc,
            deleteLoop_snd, hI, Bool.eq_false_iff.mpr hc]
      · simp [TinyConfig.deleteKeysList, TinyConfig.loadDoc, FS.loadOK, hI]
    · cases orf <;>
        simp [TinyConfig.deleteKeysList, TinyConfig.loadDoc, FS.loadOK, hI]

/-- Claim C3: every public operation decides lastError afresh on every
call, independently of its previous value: the error is None after the
call exactly when the operation completed as intended — success paths
clear it, failure paths leave a specific non-None code, and the
negative-but-valid outcomes (missing key on read, nothing to delete)
count as completions. -/
theorem lastError_invariant (tc : TinyConfig) (fs : FS) (k : String) (v : JVal)
    (n : Nat) (fbi : Int) (fbf fbs fba : String) (keys : List String) :
    ((TinyConfig.StartTC tc fs).tc.lastError = .None
      ↔ (TinyConfig.StartTC tc fs).ret = true) ∧
    ((TinyConfig.StopTC tc fs).tc.lastError = .None
      ↔ (TinyConfig.StopTC tc fs).ret = true) ∧
    ((TinyConfig.resetConfig tc fs).tc.lastError = .None
      ↔ (TinyConfig.resetConfig tc fs).ret = true) ∧
    ((TinyConfig.setMaxFileSize tc fs n).tc.lastError = .None
      ↔ (TinyConfig.setMaxFileSize tc fs n).ret = true) ∧
    ((TinyConfig.set tc fs k v).tc.lastError = .None
      ↔ (TinyConfig.set tc fs k v).ret = true) ∧
    ((TinyConfig.getInt tc fs k fbi).tc.lastError = .None
      ↔ (tc.isInitialized = true ∧ fs.loadOK = true)) ∧
    ((TinyConfig.getFloat tc fs k fbf).tc.lastError = .None
      ↔ (tc.isInitialized = true ∧ fs.loadOK = true)) ∧
    ((TinyConfig.getString tc fs k fbs).tc.lastError = .None
      ↔ (tc.isInitialized = true ∧ fs.loadOK = true)) ∧
    ((TinyConfig.getAll tc fs fba).tc.lastError = .None
      ↔ (tc.isInitialized = true ∧ fs.loadOK = true)) ∧
    ((TinyConfig.getAllJson tc fs).tc.lastError = .None
      ↔ (tc.isInitialized = true ∧ fs.loadOK = true)) ∧
    ((TinyConfig.deleteKey tc fs k).tc.lastError = .None
      ↔ (tc.isInitialized = true ∧ fs.loadOK = true ∧
          (containsKey fs.doc k = false ∨ fs.saveOK = true))) ∧
    ((TinyConfig.deleteKeysList tc fs keys).tc.lastError = .None
      ↔ (tc.isInitialized = true ∧ fs.loadOK = true ∧
          (keys.any (fun k2 => containsKey fs.doc k2) = false ∨ fs.saveOK = true))) :=
  ⟨lastError_StartTC tc fs, lastError_StopTC tc fs, lastError_resetConfig tc fs,
    lastError_setMaxFileSize tc fs n, lastError_set tc fs k v,
    lastError_getInt tc fs k fbi, lastError_getFloat tc fs k fbf,
    lastError_getString tc fs k fbs, lastError_getAll tc fs fba,
    lastError_getAllJson tc fs, lastError_deleteKey tc fs k,
    lastError_deleteKeys tc fs keys⟩
